import Mathlib

/-!
Verification of the Crowd-Level Fusion Engine
(`src/hello-world/app.js` of JeNNyder/HackOhio25Group120).

The JavaScript handler is shallowly embedded below.  Timestamps are
epoch milliseconds (`ℤ`), configuration numbers are `ℚ`, and the
floating-point fusion arithmetic is idealised over `ℝ` (with
`Real.exp` for `Math.exp` and `Real.sqrt` for `Math.sqrt`).  The
DynamoDB Report Store is a function from a partition key and a time
range to `Except Unit (List Report)`; `Except.error` models a rejected
query promise, which in the JavaScript propagates out of the `async`
handler as a thrown error.
-/

/-- A report source: `r.source === "driver"` or anything else (rider). -/
inductive Source where
  | driver
  | rider
deriving DecidableEq, Repr

/-- One stored report row, as read by `app.js`.
`ts` is the epoch-millisecond instant parsed from `SK`/`created_at`;
`level` is the crowding level (absent or out-of-range models malformed
rows); `dow` is the optional stored weekday attribute. -/
structure Report where
  ts : ℤ
  level : Option ℤ
  source : Source
  bus_id : Option String
  dow : Option ℤ
deriving DecidableEq, Repr

/-- `const levelToFrac = (lv) => ({1:0.15,2:0.35,3:0.65,4:0.90}[Number(lv)] ?? 0.35)`
(line 11): the table lookup falls back to `0.35` for any unrecognized
or missing level. -/
def levelToFrac (lv : Option ℤ) : ℚ :=
  if lv = some 1 then 3/20
  else if lv = some 2 then 7/20
  else if lv = some 3 then 13/20
  else if lv = some 4 then 9/10
  else 7/20

/-- `const clamp = (x, a, b) => Math.max(a, Math.min(b, x))` (line 12). -/
def clamp (x a b : ℝ) : ℝ := max a (min b x)

/-- The environment-injected configuration of `app.js`, with the
code's defaults: `CAPACITY=60`, `TAU_MIN=10`, `W_DRIVER=3`,
`W_RIDER=1`, `OUTLIER_DELTA=0.40`, `BUS_BONUS=1.5`, `PRIOR_MU0=0.35`,
`PRIOR_K0=2`. -/
structure Config where
  cap : ℚ
  tau : ℚ
  wDriver : ℚ
  wRider : ℚ
  outDelta : ℚ
  busBonus : ℚ
  mu0Default : ℚ
  k0Default : ℚ
deriving DecidableEq, Repr

/-- The default environment of `app.js` (also the one pinned by the
repository's unit tests). -/
def defaultConfig : Config :=
  { cap := 60, tau := 10, wDriver := 3, wRider := 1,
    outDelta := 2/5, busBonus := 3/2, mu0Default := 7/20, k0Default := 2 }

/-- `PRIOR_K_MAX = 10` (line 17). -/
def PRIOR_K_MAX : ℚ := 10

/-- `new Date(ms).getUTCDay()`: weekday 0–6 of an epoch-millisecond
instant (1970-01-01 was a Thursday, day 4); floor division. -/
def dowOfMs (ms : ℤ) : ℤ := (Int.fdiv ms 86400000 + 4) % 7

/-- The weekday attributed to a report row (line 51):
`(item.dow != null) ? item.dow : new Date(item.SK || item.created_at).getUTCDay()`. -/
def dowOf (r : Report) : ℤ := r.dow.getD (dowOfMs r.ts)

/-- The Report Store: partition key and a `[since, until]` range (in
epoch milliseconds, boundaries included, mirroring the inclusive ISO
`BETWEEN` of the DynamoDB query) to a query outcome. -/
abbrev Store := String → ℚ → ℚ → Except Unit (List Report)

/-- Lines 49–74 of `app.js`: the pure combination step of
`computeWeekdayPrior`, applied to the merged look-back query results.
Keeps the same-weekday rows, falls back to the configured defaults on
an empty set, otherwise averages the level fractions and clamps the
pseudo-count into `[2, PRIOR_K_MAX]`.  (The JavaScript also filters
the mapped fractions through `Number.isFinite` and repeats the
fallback; `levelToFrac` is total here, so that filter keeps every
element, but the second check is kept for faithfulness.) -/
def priorCombine (all : List Report) (dowTarget : ℤ) (cfg : Config) : ℚ × ℚ :=
  let sameDow := all.filter (fun item => dowOf item = dowTarget)
  if sameDow.length = 0 then (cfg.mu0Default, cfg.k0Default)
  else
    let fs := sameDow.map (fun r => levelToFrac r.level)
    if fs.length = 0 then (cfg.mu0Default, cfg.k0Default)
    else (fs.sum / (fs.length : ℚ), min PRIOR_K_MAX (max 2 (fs.length : ℚ)))

/-- The `i`-th look-back reference instant (line 31):
`centerMs - i * 7 * 24 * 60 * 60 * 1000`. -/
def priorRefMs (centerMs : ℤ) (i : ℤ) : ℤ := centerMs - i * 604800000

/-- One look-back query of `computeWeekdayPrior` (lines 32–42):
the window `[ref - 30min, ref + 30min + 1ms]` on the same partition. -/
def priorWindowQuery (store : Store) (route stop : String) (centerMs : ℤ) (i : ℤ) :
    Except Unit (List Report) :=
  store ("REPORT#" ++ route ++ "#" ++ stop)
    ((priorRefMs centerMs i : ℚ) - 1800000)
    ((priorRefMs centerMs i : ℚ) + 1800000 + 1)

/-- `computeWeekdayPrior` (lines 25–75), with the
`PRIOR_LOOKBACK_WEEKS = 4` loop unrolled: four independent range
queries joined as `Promise.all` (any rejection rejects the whole
computation), results flattened in week order and combined. -/
def computeWeekdayPrior (store : Store) (route stop : String) (centerMs : ℤ)
    (cfg : Config) : Except Unit (ℚ × ℚ) :=
  match priorWindowQuery store route stop centerMs 1,
        priorWindowQuery store route stop centerMs 2,
        priorWindowQuery store route stop centerMs 3,
        priorWindowQuery store route stop centerMs 4 with
  | .ok r1, .ok r2, .ok r3, .ok r4 =>
      .ok (priorCombine (r1 ++ r2 ++ r3 ++ r4) (dowOfMs centerMs) cfg)
  | _, _, _, _ => .error ()

/-- The mutable accumulator of the fusion loop (lines 117–118):
`num`, `den`, `countDriver`, `countRider`. -/
structure FuseSt where
  num : ℝ
  den : ℝ
  countDriver : ℕ
  countRider : ℕ

/-- One iteration of the fusion loop (lines 120–136). -/
noncomputable def fuseStep (cfg : Config) (mu0 : ℚ) (busId : Option String)
    (centerMs : ℤ) (s : FuseSt) (r : Report) : FuseSt :=
  let minutesAgo : ℚ := max 0 (((centerMs : ℚ) - (r.ts : ℚ)) / 60000)
  let decay : ℝ := Real.exp (-((minutesAgo / cfg.tau : ℚ) : ℝ))
  let base : ℚ := if r.source = Source.driver then cfg.wDriver else cfg.wRider
  let sameBusBonus : ℚ :=
    match busId with
    | some b => if r.bus_id = some b then cfg.busBonus else 1
    | none => 1
  let f : ℚ := levelToFrac r.level
  let w0 : ℝ := (base : ℝ) * decay * (sameBusBonus : ℝ)
  let muTmp : ℝ := if s.den = 0 then ((mu0 : ℚ) : ℝ) else s.num / s.den
  let w : ℝ := if |(f : ℝ) - muTmp| > ((cfg.outDelta : ℚ) : ℝ) then w0 * (6/10) else w0
  { num := s.num + w * (f : ℝ), den := s.den + w,
    countDriver := if r.source = Source.driver then s.countDriver + 1 else s.countDriver,
    countRider := if r.source = Source.driver then s.countRider else s.countRider + 1 }

/-- The full fusion fold (lines 117–136), seeded with
`num = k0*mu0, den = k0` and run over the reports in the exact order
the store returned them (the code performs no sorting). -/
noncomputable def fuse (cfg : Config) (mu0 k0 : ℚ) (busId : Option String)
    (centerMs : ℤ) (reports : List Report) : FuseSt :=
  reports.foldl (fuseStep cfg mu0 busId centerMs)
    { num := (k0 : ℝ) * (mu0 : ℝ), den := (k0 : ℝ), countDriver := 0, countRider := 0 }

/-- The qualitative confidence label (line 145). -/
inductive Conf where
  | low
  | med
  | high
deriving DecidableEq, Repr

/-- The derived quantities of lines 139–150. -/
structure CalcOut where
  mu : ℝ
  level : ℤ
  est : ℤ
  remaining : ℚ
  kEff : ℝ
  confidence : Conf
  ciLo : ℤ
  ciHi : ℤ

/-- The threshold ladder of line 141:
`mu < 0.25 ? 1 : mu < 0.5 ? 2 : mu < 0.75 ? 3 : 4`. -/
noncomputable def muToLevel (mu : ℝ) : ℤ :=
  if mu < 1/4 then 1 else if mu < 1/2 then 2 else if mu < 3/4 then 3 else 4

/-- Lines 139–150: posterior mean, headcount estimate, level,
remaining capacity, confidence label and the 68% interval. -/
noncomputable def calcOut (cfg : Config) (mu0 : ℚ) (st : FuseSt) : CalcOut :=
  let mu : ℝ := if st.den = 0 then ((mu0 : ℚ) : ℝ) else clamp (st.num / st.den) 0 1
  let est : ℤ := round (mu * ((cfg.cap : ℚ) : ℝ))
  let kEff : ℝ := st.den
  let sigma : ℝ := Real.sqrt (mu * (1 - mu) / (kEff + 1))
  { mu := mu,
    level := muToLevel mu,
    est := est,
    remaining := max 0 (cfg.cap - (est : ℚ)),
    kEff := kEff,
    confidence := if kEff < 3 then Conf.low else if kEff < 6 then Conf.med else Conf.high,
    ciLo := round (clamp (mu - sigma) 0 1 * ((cfg.cap : ℚ) : ℝ)),
    ciHi := round (clamp (mu + sigma) 0 1 * ((cfg.cap : ℚ) : ℝ)) }

/-- The composition the handler performs per request: fuse the
current-window reports into the prior, then derive the outputs. -/
noncomputable def runEstimate (cfg : Config) (mu0 k0 : ℚ) (busId : Option String)
    (centerMs : ℤ) (reports : List Report) : CalcOut :=
  calcOut cfg mu0 (fuse cfg mu0 k0 busId centerMs reports)

/-- The parsed query-string parameters of the handler.  `atMs` is the
`?at=` instant after the ISO/millisecond parsing of line 90 and `win`
is the numeric `?win=` value. -/
structure Query where
  route : Option String
  stop : Option String
  bus_id : Option String
  atMs : Option ℤ
  win : Option ℚ

/-- JavaScript `o || d` for an optional string: the empty string is
falsy and also falls back. -/
def orDefault (o : Option String) (d : String) : String :=
  match o with
  | some s => if s = "" then d else s
  | none => d

/-- JavaScript `q.bus_id || null` (line 86). -/
def orNull (o : Option String) : Option String :=
  match o with
  | some s => if s = "" then none else some s
  | none => none

/-- The response body assembled on lines 162–173 (the JSON body; field
for field, in order). -/
structure Response where
  route : String
  stop : String
  bus_id : Option String
  level : ℤ
  est_headcount : ℤ
  ci_lo : ℤ
  ci_hi : ℤ
  remaining_capacity : ℚ
  confidence : Conf
  counts_reports : ℕ
  counts_driver : ℕ
  counts_rider : ℕ
  window_min : ℚ
  ts : ℤ
  prior_mu0 : ℚ
  prior_k0 : ℚ
deriving DecidableEq, Repr

/-- The GET path of `exports.lambdaHandler` (lines 78–175).  `nowMs`
injects `Date.now()`: it seeds `centerMs` when `?at=` is absent (line
90) and is always echoed as the body's `ts` field (line 171).  A
rejected store query makes the `await` throw, so the whole handler
rejects: `Except.error`. -/
noncomputable def lambdaHandler (cfg : Config) (q : Query) (store : Store)
    (nowMs : ℤ) : Except Unit Response :=
  let route := orDefault q.route "CC"
  let stop := orDefault q.stop "A"
  let busId := orNull q.bus_id
  let centerMs := q.atMs.getD nowMs
  let windowMin := q.win.getD 15
  match computeWeekdayPrior store route stop centerMs cfg with
  | .error e => .error e
  | .ok prior =>
    match store ("REPORT#" ++ route ++ "#" ++ stop)
        ((centerMs : ℚ) - windowMin * 60 * 1000) ((centerMs : ℚ) + 1) with
    | .error e => .error e
    | .ok reports =>
      let st := fuse cfg prior.1 prior.2 busId centerMs reports
      let out := calcOut cfg prior.1 st
      .ok { route := route, stop := stop, bus_id := busId,
            level := out.level, est_headcount := out.est,
            ci_lo := out.ciLo, ci_hi := out.ciHi,
            remaining_capacity := out.remaining,
            confidence := out.confidence,
            counts_reports := reports.length,
            counts_driver := st.countDriver,
            counts_rider := st.countRider,
            window_min := windowMin, ts := nowMs,
            prior_mu0 := prior.1, prior_k0 := prior.2 }

/-- Modelled from the spec: §4.2 mandates that the current-window
reports be put "into a fixed, deterministic order — ascending
timestamp" before the fold.  No such sort exists in
`src/hello-world/app.js`; this insertion sort (stable, ascending by
`ts`) realises the mandated order so the mandate can be compared with
the code. -/
def insertByTs (r : Report) : List Report → List Report
  | [] => [r]
  | x :: xs => if r.ts ≤ x.ts then r :: x :: xs else x :: insertByTs r xs

/-- Modelled from the spec: ascending-timestamp sort of §4.2 (see
`insertByTs`). -/
def sortByTs : List Report → List Report
  | [] => []
  | x :: xs => insertByTs x (sortByTs xs)

/-- A report with its `bus_id` removed (all other fields kept). -/
def stripBus (r : Report) : Report := { r with bus_id := none }

/-- The response with its wall-clock `ts` field normalised away. -/
def stripTs (r : Response) : Response := { r with ts := 0 }

/-- A store whose every query rejects. -/
def failingStore : Store := fun _ _ _ => .error ()

/-- A store whose every query returns no rows. -/
def emptyStore : Store := fun _ _ _ => .ok []

/-- A driver report at level 4 (fraction 0.90), timestamped `t`. -/
def repDrv4 (t : ℤ) : Report := ⟨t, some 4, Source.driver, none, none⟩

/-- A rider report at level 1 (fraction 0.15), timestamped `t`. -/
def repRdr1 (t : ℤ) : Report := ⟨t, some 1, Source.rider, none, none⟩

/-- A rider report at level 1 on bus "B7", at the window center. -/
def repRdr1Bus : Report := ⟨0, some 1, Source.rider, some "B7", none⟩

/-- A driver report at level 4 on bus "B1", at the window center. -/
def repDrv4Bus : Report := ⟨0, some 4, Source.driver, some "B1", none⟩

/-- A report with an out-of-range level 7. -/
def badLevelReport : Report := ⟨0, some 7, Source.rider, none, none⟩

/-- A store whose every query returns the single malformed report. -/
def badLevelStore : Store := fun _ _ _ => .ok [badLevelReport]

/-- A query pinning `?at=0` and leaving everything else to defaults. -/
def qAtZero : Query := ⟨none, none, none, some 0, none⟩

/-- The source-and-recency part of a report's fusion weight
(`base * decay` of lines 122–125), in isolation. -/
noncomputable def baseWeight (cfg : Config) (c : ℤ) (r : Report) : ℝ :=
  ((if r.source = Source.driver then cfg.wDriver else cfg.wRider : ℚ) : ℝ) *
    Real.exp (-((max 0 (((c : ℚ) - (r.ts : ℚ)) / 60000) / cfg.tau : ℚ) : ℝ))

/-- The soft outlier factor of line 132 against the seeded prior mean
(the running mean equals `mu0` when no report has been folded yet). -/
noncomputable def outFactor (cfg : Config) (mu0 : ℚ) (r : Report) : ℝ :=
  if |((levelToFrac r.level : ℚ) : ℝ) - ((mu0 : ℚ) : ℝ)| > ((cfg.outDelta : ℚ) : ℝ)
  then 6/10 else 1

/-! ## Helper lemmas -/

theorem clamp01_nonneg (x : ℝ) : 0 ≤ clamp x 0 1 := le_max_left _ _

theorem clamp01_le_one (x : ℝ) : clamp x 0 1 ≤ 1 :=
  max_le zero_le_one (min_le_left _ _)

theorem clamp01_mono {x y : ℝ} (h : x ≤ y) : clamp x 0 1 ≤ clamp y 0 1 :=
  max_le_max le_rfl (min_le_min le_rfl h)

theorem round_le_round_of_le {x y : ℝ} (h : x ≤ y) : round x ≤ round y := by
  rw [round_eq, round_eq]
  exact Int.floor_le_floor (by linarith)

/-! ## C8: level/fraction tables are inverse partitions -/

/-- C8: `levelToFrac` is strictly increasing over the levels 1–4, and
the threshold ladder of line 141 is its exact inverse partition: for
every level in 1–4, applying the thresholds to the level's fraction
returns the level. -/
theorem C8_level_fraction_inverse :
    (∀ a b : ℤ, 1 ≤ a → a < b → b ≤ 4 →
      levelToFrac (some a) < levelToFrac (some b)) ∧
    (∀ lv : ℤ, 1 ≤ lv → lv ≤ 4 →
      muToLevel ((levelToFrac (some lv) : ℚ) : ℝ) = lv) := by
  constructor
  · intro a b ha hab hb
    have hb1 : 1 ≤ b := by omega
    have ha4 : a ≤ 4 := by omega
    interval_cases a <;> interval_cases b <;> simp_all [levelToFrac] <;> norm_num
  · intro lv h1 h4
    interval_cases lv <;> norm_num [levelToFrac, muToLevel]

/-- Witness for C8 at the concrete levels 2 < 3 and 4. -/
theorem C8_level_fraction_inverse_witness :
    levelToFrac (some 2) < levelToFrac (some 3) ∧
    muToLevel ((levelToFrac (some 4) : ℚ) : ℝ) = 4 :=
  ⟨C8_level_fraction_inverse.1 2 3 (by norm_num) (by norm_num) (by norm_num),
   C8_level_fraction_inverse.2 4 (by norm_num) (by norm_num)⟩

/-! ## C6: the prior estimator -/

/-- C6: on an empty same-weekday set the prior estimator returns the
configured defaults; otherwise it returns the arithmetic mean of the
kept reports' level fractions together with the pseudo-count
`clamp(count, 2, 10)`, which always lies between 2 and 10. -/
theorem C6_prior_estimator (all : List Report) (dowT : ℤ) (cfg : Config) :
    (all.filter (fun r => dowOf r = dowT) = [] →
      priorCombine all dowT cfg = (cfg.mu0Default, cfg.k0Default)) ∧
    (all.filter (fun r => dowOf r = dowT) ≠ [] →
      priorCombine all dowT cfg =
        (((all.filter (fun r => dowOf r = dowT)).map (fun r => levelToFrac r.level)).sum /
            ((all.filter (fun r => dowOf r = dowT)).length : ℚ),
         min 10 (max 2 ((all.filter (fun r => dowOf r = dowT)).length : ℚ))) ∧
      2 ≤ (priorCombine all dowT cfg).2 ∧ (priorCombine all dowT cfg).2 ≤ 10) := by
  constructor
  · intro h
    simp [priorCombine, h]
  · intro h
    have hlen : (all.filter (fun r => dowOf r = dowT)).length ≠ 0 := by
      simpa [List.length_eq_zero] using h
    have heq : priorCombine all dowT cfg =
        (((all.filter (fun r => dowOf r = dowT)).map (fun r => levelToFrac r.level)).sum /
            ((all.filter (fun r => dowOf r = dowT)).length : ℚ),
         min 10 (max 2 ((all.filter (fun r => dowOf r = dowT)).length : ℚ))) := by
      simp [priorCombine, hlen, PRIOR_K_MAX]
    refine ⟨heq, ?_, ?_⟩
    · rw [heq]
      exact le_min (by norm_num) (le_max_left _ _)
    · rw [heq]
      exact min_le_left _ _

/-- Witness for C6: six level-3 same-weekday reports give
`mu0 = 0.65`, `k0 = 6`; with no matching reports the defaults return. -/
theorem C6_prior_estimator_witness :
    priorCombine (List.replicate 6 ⟨0, some 3, Source.rider, none, some 0⟩) 0 defaultConfig =
      (13/20, 6) ∧
    priorCombine [] 0 defaultConfig = (7/20, 2) := by
  have hf : (List.replicate 6 (⟨0, some 3, Source.rider, none, some 0⟩ : Report)).filter
      (fun r => dowOf r = 0) = List.replicate 6 ⟨0, some 3, Source.rider, none, some 0⟩ := by
    simp [List.replicate, dowOf]
  constructor
  · have h := (C6_prior_estimator
      (List.replicate 6 ⟨0, some 3, Source.rider, none, some 0⟩) 0 defaultConfig).2
      (by rw [hf]; simp [List.replicate])
    rw [h.1, hf]
    norm_num [List.replicate, levelToFrac]
  · have h := (C6_prior_estimator [] 0 defaultConfig).1 rfl
    rw [h]
    norm_num [defaultConfig]

/-! ## C3: store failure -/

/-- C3 (code evaluated at the failing input): the handler has no
`try`/`catch`, so when the store rejects its queries the whole request
rejects (`Except.error`) instead of degrading to the default prior
with an empty current window, contradicting the spec's §7 design. -/
theorem C3_store_failure_rejects (cfg : Config) (q : Query) (nowMs : ℤ) :
    lambdaHandler cfg q failingStore nowMs = .error () := rfl

/-! ## C9: malformed levels -/

/-- C9: a missing or out-of-range `level` maps to the default fraction
`0.35` (the same fraction the table assigns to level 2), and the
handler never throws on its own: whenever every store query resolves,
the whole estimate resolves. -/
theorem C9_malformed_level_safe :
    (∀ lv : Option ℤ, (∀ k : ℤ, lv = some k → k < 1 ∨ 4 < k) →
      levelToFrac lv = 7/20) ∧
    (∀ (cfg : Config) (q : Query) (store : Store) (nowMs : ℤ),
      (∀ pk a b, ∃ items, store pk a b = Except.ok items) →
      ∃ resp, lambdaHandler cfg q store nowMs = Except.ok resp) := by
  constructor
  · intro lv h
    match lv with
    | none => rfl
    | some k =>
      have hk := h k rfl
      have h1 : some k ≠ some 1 := by simp; omega
      have h2 : some k ≠ some 2 := by simp; omega
      have h3 : some k ≠ some 3 := by simp; omega
      have h4 : some k ≠ some 4 := by simp; omega
      simp [levelToFrac, h1, h2, h3, h4]
  · intro cfg q store nowMs h
    obtain ⟨r1, h1⟩ := h ("REPORT#" ++ orDefault q.route "CC" ++ "#" ++ orDefault q.stop "A")
      ((priorRefMs (q.atMs.getD nowMs) 1 : ℚ) - 1800000)
      ((priorRefMs (q.atMs.getD nowMs) 1 : ℚ) + 1800000 + 1)
    obtain ⟨r2, h2⟩ := h ("REPORT#" ++ orDefault q.route "CC" ++ "#" ++ orDefault q.stop "A")
      ((priorRefMs (q.atMs.getD nowMs) 2 : ℚ) - 1800000)
      ((priorRefMs (q.atMs.getD nowMs) 2 : ℚ) + 1800000 + 1)
    obtain ⟨r3, h3⟩ := h ("REPORT#" ++ orDefault q.route "CC" ++ "#" ++ orDefault q.stop "A")
      ((priorRefMs (q.atMs.getD nowMs) 3 : ℚ) - 1800000)
      ((priorRefMs (q.atMs.getD nowMs) 3 : ℚ) + 1800000 + 1)
    obtain ⟨r4, h4⟩ := h ("REPORT#" ++ orDefault q.route "CC" ++ "#" ++ orDefault q.stop "A")
      ((priorRefMs (q.atMs.getD nowMs) 4 : ℚ) - 1800000)
      ((priorRefMs (q.atMs.getD nowMs) 4 : ℚ) + 1800000 + 1)
    obtain ⟨cur, hc⟩ := h ("REPORT#" ++ orDefault q.route "CC" ++ "#" ++ orDefault q.stop "A")
      (((q.atMs.getD nowMs : ℤ) : ℚ) - (q.win.getD 15) * 60 * 1000)
      (((q.atMs.getD nowMs : ℤ) : ℚ) + 1)
    simp only [lambdaHandler, computeWeekdayPrior, priorWindowQuery, h1, h2, h3, h4, hc]
    exact ⟨_, rfl⟩

/-- Witness for C9: the out-of-range level 7 maps to `0.35`, and a
store serving that malformed report still yields a resolved estimate. -/
theorem C9_malformed_level_safe_witness :
    levelToFrac (some 7) = 7/20 ∧
    ∃ resp, lambdaHandler defaultConfig qAtZero badLevelStore 0 = Except.ok resp :=
  ⟨C9_malformed_level_safe.1 (some 7) (by intro k hk; injection hk with h; omega),
   C9_malformed_level_safe.2 defaultConfig qAtZero badLevelStore 0
     (fun _ _ _ => ⟨[badLevelReport], rfl⟩)⟩

/-! ## C10: without a bus filter, bus ids are irrelevant -/

theorem fuseStep_busIndep (cfg : Config) (mu0 : ℚ) (c : ℤ) (s : FuseSt)
    {r1 r2 : Report} (h : stripBus r1 = stripBus r2) :
    fuseStep cfg mu0 none c s r1 = fuseStep cfg mu0 none c s r2 := by
  have hts : r1.ts = r2.ts := by simpa [stripBus] using congrArg Report.ts h
  have hlv : r1.level = r2.level := by simpa [stripBus] using congrArg Report.level h
  have hsrc : r1.source = r2.source := by simpa [stripBus] using congrArg Report.source h
  simp only [fuseStep, hts, hlv, hsrc]

theorem foldl_fuseStep_busIndep (cfg : Config) (mu0 : ℚ) (c : ℤ) :
    ∀ (l1 l2 : List Report) (s : FuseSt),
      l1.map stripBus = l2.map stripBus →
      l1.foldl (fuseStep cfg mu0 none c) s = l2.foldl (fuseStep cfg mu0 none c) s := by
  intro l1
  induction l1 with
  | nil =>
    intro l2 s h
    cases l2 with
    | nil => rfl
    | cons y ys => simp at h
  | cons x xs ih =>
    intro l2 s h
    cases l2 with
    | nil => simp at h
    | cons y ys =>
      simp only [List.map_cons, List.cons.injEq] at h
      simp only [List.foldl_cons]
      rw [fuseStep_busIndep cfg mu0 c s h.1]
      exact ih ys _ h.2

/-- C10: with no `?bus_id=` filter, the estimate ignores the reports'
`bus_id` fields entirely: two current windows that agree after erasing
every `bus_id` produce the same fusion state (hence the same per-source
counts), the same derived outputs (level, headcount, interval,
remaining capacity, confidence), and the same report count. -/
theorem C10_no_filter_busid_independent (cfg : Config) (mu0 k0 : ℚ) (c : ℤ)
    (l1 l2 : List Report) (h : l1.map stripBus = l2.map stripBus) :
    fuse cfg mu0 k0 none c l1 = fuse cfg mu0 k0 none c l2 ∧
    runEstimate cfg mu0 k0 none c l1 = runEstimate cfg mu0 k0 none c l2 ∧
    l1.length = l2.length := by
  have hf : fuse cfg mu0 k0 none c l1 = fuse cfg mu0 k0 none c l2 :=
    foldl_fuseStep_busIndep cfg mu0 c l1 l2 _ h
  refine ⟨hf, ?_, ?_⟩
  · simp only [runEstimate, hf]
  · simpa using congrArg List.length h

/-- Witness for C10: the same report on bus "X" or bus "Y" yields
identical unfiltered results. -/
theorem C10_no_filter_busid_independent_witness :
    fuse defaultConfig (7/20) 2 none 0 [⟨0, some 3, Source.rider, some "X", none⟩] =
      fuse defaultConfig (7/20) 2 none 0 [⟨0, some 3, Source.rider, some "Y", none⟩] ∧
    runEstimate defaultConfig (7/20) 2 none 0 [⟨0, some 3, Source.rider, some "X", none⟩] =
      runEstimate defaultConfig (7/20) 2 none 0 [⟨0, some 3, Source.rider, some "Y", none⟩] ∧
    ([(⟨0, some 3, Source.rider, some "X", none⟩ : Report)]).length =
      ([(⟨0, some 3, Source.rider, some "Y", none⟩ : Report)]).length :=
  C10_no_filter_busid_independent defaultConfig (7/20) 2 0 _ _ rfl

/-! ## C7: output ranges -/

theorem round_mul_bounds {x : ℝ} {n : ℤ} (h0 : 0 ≤ x) (h1 : x ≤ 1) (hn : 0 ≤ n) :
    0 ≤ round (x * (n : ℝ)) ∧ round (x * (n : ℝ)) ≤ n := by
  have hn' : (0:ℝ) ≤ (n : ℝ) := by exact_mod_cast hn
  constructor
  · have hx : (0:ℝ) ≤ x * (n : ℝ) := mul_nonneg h0 hn'
    calc (0:ℤ) = round (0:ℝ) := round_zero.symm
      _ ≤ round (x * (n : ℝ)) := round_le_round_of_le hx
  · have hx : x * (n : ℝ) ≤ (n : ℝ) := by nlinarith
    calc round (x * (n : ℝ)) ≤ round ((n : ℤ) : ℝ) := round_le_round_of_le hx
      _ = n := round_intCast n

theorem calcOut_bounds (cfg : Config) (mu0 : ℚ) (st : FuseSt) (n : ℤ)
    (hm0 : 0 ≤ mu0) (hm1 : mu0 ≤ 1) (hcap : cfg.cap = (n : ℚ)) (hn : 0 ≤ n) :
    0 ≤ (calcOut cfg mu0 st).mu ∧ (calcOut cfg mu0 st).mu ≤ 1 ∧
    0 ≤ (calcOut cfg mu0 st).est ∧ (((calcOut cfg mu0 st).est : ℤ) : ℚ) ≤ cfg.cap ∧
    (calcOut cfg mu0 st).ciLo ≤ (calcOut cfg mu0 st).ciHi ∧
    0 ≤ (calcOut cfg mu0 st).ciLo ∧ (((calcOut cfg mu0 st).ciHi : ℤ) : ℚ) ≤ cfg.cap := by
  have hcast : ((cfg.cap : ℚ) : ℝ) = ((n : ℤ) : ℝ) := by rw [hcap]; push_cast; ring
  have hn' : (0:ℝ) ≤ ((n : ℤ) : ℝ) := by exact_mod_cast hn
  simp only [calcOut, hcast]
  set mu : ℝ := if st.den = 0 then ((mu0 : ℚ) : ℝ) else clamp (st.num / st.den) 0 1 with hmu
  have hmu01 : 0 ≤ mu ∧ mu ≤ 1 := by
    by_cases hden : st.den = 0
    · rw [hmu, if_pos hden]
      constructor
      · exact_mod_cast hm0
      · exact_mod_cast hm1
    · rw [hmu, if_neg hden]
      exact ⟨clamp01_nonneg _, clamp01_le_one _⟩
  have hsig : 0 ≤ Real.sqrt (mu * (1 - mu) / (st.den + 1)) := Real.sqrt_nonneg _
  have hest := round_mul_bounds hmu01.1 hmu01.2 hn
  have hlo := round_mul_bounds (clamp01_nonneg (mu - Real.sqrt (mu * (1 - mu) / (st.den + 1))))
    (clamp01_le_one (mu - Real.sqrt (mu * (1 - mu) / (st.den + 1)))) hn
  have hhi := round_mul_bounds (clamp01_nonneg (mu + Real.sqrt (mu * (1 - mu) / (st.den + 1))))
    (clamp01_le_one (mu + Real.sqrt (mu * (1 - mu) / (st.den + 1)))) hn
  refine ⟨hmu01.1, hmu01.2, hest.1, ?_, ?_, hlo.1, ?_⟩
  · rw [hcap]
    exact_mod_cast hest.2
  · refine round_le_round_of_le (mul_le_mul_of_nonneg_right (clamp01_mono ?_) hn')
    linarith
  · rw [hcap]
    exact_mod_cast hhi.2

/-- C7: for every configuration with an integral nonnegative capacity
and a prior mean in `[0,1]` (the prior estimator only ever produces
such values), and for every report list and query parameters, the
estimate satisfies `mu ∈ [0,1]`, `est_headcount ∈ [0, CAPACITY]`, and
`headcount_ci68[0] ≤ headcount_ci68[1]` with both endpoints in
`[0, CAPACITY]`. -/
theorem C7_output_bounds (cfg : Config) (mu0 k0 : ℚ) (busId : Option String)
    (c : ℤ) (reports : List Report) (n : ℤ)
    (hm0 : 0 ≤ mu0) (hm1 : mu0 ≤ 1) (hcap : cfg.cap = (n : ℚ)) (hn : 0 ≤ n) :
    0 ≤ (runEstimate cfg mu0 k0 busId c reports).mu ∧
    (runEstimate cfg mu0 k0 busId c reports).mu ≤ 1 ∧
    0 ≤ (runEstimate cfg mu0 k0 busId c reports).est ∧
    (((runEstimate cfg mu0 k0 busId c reports).est : ℤ) : ℚ) ≤ cfg.cap ∧
    (runEstimate cfg mu0 k0 busId c reports).ciLo ≤
      (runEstimate cfg mu0 k0 busId c reports).ciHi ∧
    0 ≤ (runEstimate cfg mu0 k0 busId c reports).ciLo ∧
    (((runEstimate cfg mu0 k0 busId c reports).ciHi : ℤ) : ℚ) ≤ cfg.cap :=
  calcOut_bounds cfg mu0 (fuse cfg mu0 k0 busId c reports) n hm0 hm1 hcap hn

/-- Witness for C7 at the default configuration, default prior and an
empty current window. -/
theorem C7_output_bounds_witness :
    0 ≤ (runEstimate defaultConfig (7/20) 2 none 0 []).mu ∧
    (runEstimate defaultConfig (7/20) 2 none 0 []).mu ≤ 1 ∧
    0 ≤ (runEstimate defaultConfig (7/20) 2 none 0 []).est ∧
    (((runEstimate defaultConfig (7/20) 2 none 0 []).est : ℤ) : ℚ) ≤ defaultConfig.cap ∧
    (runEstimate defaultConfig (7/20) 2 none 0 []).ciLo ≤
      (runEstimate defaultConfig (7/20) 2 none 0 []).ciHi ∧
    0 ≤ (runEstimate defaultConfig (7/20) 2 none 0 []).ciLo ∧
    (((runEstimate defaultConfig (7/20) 2 none 0 []).ciHi : ℤ) : ℚ) ≤ defaultConfig.cap :=
  C7_output_bounds defaultConfig (7/20) 2 none 0 [] 60 (by norm_num) (by norm_num)
    (by norm_num [defaultConfig]) (by norm_num)

/-! ## Concrete fold evaluations -/

theorem fuse_drv_then_rdr (c t u : ℤ) (hct : c ≤ t) (hcu : c ≤ u) :
    fuse defaultConfig (7/20) 2 none c [repDrv4 t, repRdr1 u] =
      ⟨241/100, 22/5, 1, 1⟩ := by
  have h1 : ((c : ℚ) - (t : ℚ)) / 60000 ≤ 0 := by
    rw [div_nonpos_iff]
    right
    constructor
    · have hc : (c : ℚ) ≤ (t : ℚ) := by exact_mod_cast hct
      linarith
    · norm_num
  have h2 : ((c : ℚ) - (u : ℚ)) / 60000 ≤ 0 := by
    rw [div_nonpos_iff]
    right
    constructor
    · have hc : (c : ℚ) ≤ (u : ℚ) := by exact_mod_cast hcu
      linarith
    · norm_num
  have e1 : fuseStep defaultConfig (7/20) none c
      ⟨((2:ℚ) : ℝ) * ((7/20 : ℚ) : ℝ), ((2:ℚ) : ℝ), 0, 0⟩ (repDrv4 t) =
      ⟨58/25, 19/5, 1, 0⟩ := by
    simp only [fuseStep, repDrv4, defaultConfig, levelToFrac]
    norm_num [max_eq_left h1, Real.exp_zero, lt_abs, FuseSt.mk.injEq]
  have e2 : fuseStep defaultConfig (7/20) none c
      ⟨(58/25 : ℝ), (19/5 : ℝ), 1, 0⟩ (repRdr1 u) = ⟨241/100, 22/5, 1, 1⟩ := by
    simp only [fuseStep, repRdr1, defaultConfig, levelToFrac]
    norm_num [max_eq_left h2, Real.exp_zero, lt_abs, FuseSt.mk.injEq,
      show (Source.rider = Source.driver) = False by simp]
  rw [fuse, List.foldl_cons, e1, List.foldl_cons, e2, List.foldl_nil]

theorem fuse_rdr_then_drv (c t u : ℤ) (hct : c ≤ t) (hcu : c ≤ u) :
    fuse defaultConfig (7/20) 2 none c [repRdr1 u, repDrv4 t] =
      ⟨247/100, 24/5, 1, 1⟩ := by
  have h1 : ((c : ℚ) - (t : ℚ)) / 60000 ≤ 0 := by
    rw [div_nonpos_iff]
    right
    constructor
    · have hc : (c : ℚ) ≤ (t : ℚ) := by exact_mod_cast hct
      linarith
    · norm_num
  have h2 : ((c : ℚ) - (u : ℚ)) / 60000 ≤ 0 := by
    rw [div_nonpos_iff]
    right
    constructor
    · have hc : (c : ℚ) ≤ (u : ℚ) := by exact_mod_cast hcu
      linarith
    · norm_num
  have e1 : fuseStep defaultConfig (7/20) none c
      ⟨((2:ℚ) : ℝ) * ((7/20 : ℚ) : ℝ), ((2:ℚ) : ℝ), 0, 0⟩ (repRdr1 u) =
      ⟨17/20, 3, 0, 1⟩ := by
    simp only [fuseStep, repRdr1, defaultConfig, levelToFrac]
    norm_num [max_eq_left h2, Real.exp_zero, lt_abs, FuseSt.mk.injEq,
      show (Source.rider = Source.driver) = False by simp]
  have e2 : fuseStep defaultConfig (7/20) none c
      ⟨(17/20 : ℝ), (3 : ℝ), 0, 1⟩ (repDrv4 t) = ⟨247/100, 24/5, 1, 1⟩ := by
    simp only [fuseStep, repDrv4, defaultConfig, levelToFrac]
    norm_num [max_eq_left h1, Real.exp_zero, lt_abs, FuseSt.mk.injEq]
  rw [fuse, List.foldl_cons, e1, List.foldl_cons, e2, List.foldl_nil]

/-! ## C2: the fold runs in store order, not sorted order -/

/-- C2 (code evaluated at the failing input): the store returns a
driver level-4 report timestamped 1 ms after the window center and a
rider level-1 report at the center, in that (descending) order; both
have zero decay because `minutesAgo` is floored at 0.  The
spec-mandated ascending order is `[rider, driver]`, yet the code's
fold over the store order produces a different fusion state
(`mu = 241/440, kEff = 22/5`) than the fold over the sorted order
(`mu = 247/480, kEff = 24/5`): the code never re-sorts and its fold is
order-dependent. -/
theorem C2_unsorted_fold_differs :
    sortByTs [repDrv4 1, repRdr1 0] = [repRdr1 0, repDrv4 1] ∧
    fuse defaultConfig (7/20) 2 none 0 [repDrv4 1, repRdr1 0] ≠
      fuse defaultConfig (7/20) 2 none 0 (sortByTs [repDrv4 1, repRdr1 0]) := by
  have hsort : sortByTs [repDrv4 1, repRdr1 0] = [repRdr1 0, repDrv4 1] := by
    simp [sortByTs, insertByTs, repDrv4, repRdr1]
  refine ⟨hsort, ?_⟩
  rw [hsort, fuse_drv_then_rdr 0 1 0 (by norm_num) le_rfl,
    fuse_rdr_then_drv 0 1 0 (by norm_num) le_rfl]
  intro h
  have hnum := congrArg FuseSt.num h
  norm_num at hnum

/-! ## C5: driver vs rider pull -/

/-- C5 counterexample: a window holding exactly one driver report at
level 4 and one rider report at level 1 with equal timestamps (both at
the window center), default prior and default weights — but returned
rider-first by the store.  The fused `mu = 247/480 ≈ 0.5146` is
strictly closer to the rider's fraction 0.15 than to the driver's
0.90, because the driver report, folded second, is outlier-discounted
against a mean the rider has already pulled down. -/
theorem C5_counterexample :
    |(runEstimate defaultConfig (7/20) 2 none 0 [repRdr1 0, repDrv4 0]).mu - 9/10| >
      |(runEstimate defaultConfig (7/20) 2 none 0 [repRdr1 0, repDrv4 0]).mu - 3/20| := by
  have hf := fuse_rdr_then_drv 0 0 0 le_rfl le_rfl
  have hmu : (runEstimate defaultConfig (7/20) 2 none 0 [repRdr1 0, repDrv4 0]).mu
      = 247/480 := by
    rw [runEstimate, hf]
    norm_num [calcOut, clamp, min_def, max_def]
  rw [hmu, abs_of_nonpos (by norm_num), abs_of_nonneg (by norm_num)]
  norm_num

/-- C5 (amended): when the equal-timestamp pair sits at the window
center (zero decay) and the store returns the driver report first, the
fused `mu = 241/440 ≈ 0.548` is strictly closer to the driver's
fraction 0.90 than to the rider's 0.15. -/
theorem C5_driver_first_closer_to_driver (t : ℤ) :
    |(runEstimate defaultConfig (7/20) 2 none t [repDrv4 t, repRdr1 t]).mu - 9/10| <
      |(runEstimate defaultConfig (7/20) 2 none t [repDrv4 t, repRdr1 t]).mu - 3/20| := by
  have hf := fuse_drv_then_rdr t t t le_rfl le_rfl
  have hmu : (runEstimate defaultConfig (7/20) 2 none t [repDrv4 t, repRdr1 t]).mu
      = 241/440 := by
    rw [runEstimate, hf]
    norm_num [calcOut, clamp, min_def, max_def]
  rw [hmu, abs_of_nonpos (by norm_num), abs_of_nonneg (by norm_num)]
  norm_num

/-! ## C4: the bus_id bonus is not monotone upward -/

theorem fuse_rdrBus_with :
    fuse defaultConfig (7/20) 2 (some "B7") 0 [repRdr1Bus] = ⟨37/40, 7/2, 0, 1⟩ := by
  have e1 : fuseStep defaultConfig (7/20) (some "B7") 0
      ⟨((2:ℚ) : ℝ) * ((7/20 : ℚ) : ℝ), ((2:ℚ) : ℝ), 0, 0⟩ repRdr1Bus =
      ⟨37/40, 7/2, 0, 1⟩ := by
    simp only [fuseStep, repRdr1Bus, defaultConfig, levelToFrac]
    norm_num [max_def, Real.exp_zero, lt_abs, FuseSt.mk.injEq,
      show (Source.rider = Source.driver) = False by simp]
  rw [fuse, List.foldl_cons, e1, List.foldl_nil]

theorem fuse_rdrBus_without :
    fuse defaultConfig (7/20) 2 none 0 [repRdr1Bus] = ⟨17/20, 3, 0, 1⟩ := by
  have e1 : fuseStep defaultConfig (7/20) none 0
      ⟨((2:ℚ) : ℝ) * ((7/20 : ℚ) : ℝ), ((2:ℚ) : ℝ), 0, 0⟩ repRdr1Bus =
      ⟨17/20, 3, 0, 1⟩ := by
    simp only [fuseStep, repRdr1Bus, defaultConfig, levelToFrac]
    norm_num [max_def, Real.exp_zero, lt_abs, FuseSt.mk.injEq,
      show (Source.rider = Source.driver) = False by simp]
  rw [fuse, List.foldl_cons, e1, List.foldl_nil]

/-- C4 counterexample: a window whose single report matches the
`bus_id` filter but carries the low level 1.  The 1.5x bonus gives the
low report more relative weight, pulling `mu` down: with the filter
`est_headcount = 16`, without it `est_headcount = 17` — the filtered
estimate is strictly smaller, not `≥`. -/
theorem C4_counterexample :
    repRdr1Bus.bus_id = some "B7" ∧
    (runEstimate defaultConfig (7/20) 2 (some "B7") 0 [repRdr1Bus]).est <
      (runEstimate defaultConfig (7/20) 2 none 0 [repRdr1Bus]).est := by
  refine ⟨rfl, ?_⟩
  have hw : (runEstimate defaultConfig (7/20) 2 (some "B7") 0 [repRdr1Bus]).est = 16 := by
    rw [runEstimate, fuse_rdrBus_with]
    simp only [calcOut, defaultConfig]
    norm_num [clamp, min_def, max_def]
    rw [round_eq]
    rw [Int.floor_eq_iff]
    norm_num
  have hwo : (runEstimate defaultConfig (7/20) 2 none 0 [repRdr1Bus]).est = 17 := by
    rw [runEstimate, fuse_rdrBus_without]
    simp only [calcOut, defaultConfig]
    norm_num [clamp, min_def, max_def]
  rw [hw, hwo]
  norm_num

theorem fuseStep_init_none (cfg : Config) (mu0 k0 : ℚ) (c : ℤ) (r : Report)
    (hk : ((k0 : ℚ) : ℝ) ≠ 0) :
    fuseStep cfg mu0 none c ⟨(k0 : ℝ) * (mu0 : ℝ), (k0 : ℝ), 0, 0⟩ r =
      ⟨(k0 : ℝ) * (mu0 : ℝ) +
        baseWeight cfg c r * outFactor cfg mu0 r * ((levelToFrac r.level : ℚ) : ℝ),
       (k0 : ℝ) + baseWeight cfg c r * outFactor cfg mu0 r,
       if r.source = Source.driver then 1 else 0,
       if r.source = Source.driver then 0 else 1⟩ := by
  have hmt : (k0 : ℝ) * (mu0 : ℝ) / (k0 : ℝ) = (mu0 : ℝ) := mul_div_cancel_left₀ _ hk
  simp only [fuseStep, baseWeight, outFactor]
  rw [if_neg hk, hmt]
  by_cases hout :
      |((levelToFrac r.level : ℚ) : ℝ) - ((mu0 : ℚ) : ℝ)| > ((cfg.outDelta : ℚ) : ℝ)
  · rw [if_pos hout, if_pos hout]
    simp only [FuseSt.mk.injEq]
    refine ⟨by push_cast; ring, by push_cast; ring, by simp, by simp⟩
  · rw [if_neg hout, if_neg hout]
    simp only [FuseSt.mk.injEq]
    refine ⟨by push_cast; ring, by push_cast; ring, by simp, by simp⟩

theorem fuseStep_init_some (cfg : Config) (mu0 k0 : ℚ) (b : String) (c : ℤ)
    (r : Report) (hk : ((k0 : ℚ) : ℝ) ≠ 0) (hbus : r.bus_id = some b) :
    fuseStep cfg mu0 (some b) c ⟨(k0 : ℝ) * (mu0 : ℝ), (k0 : ℝ), 0, 0⟩ r =
      ⟨(k0 : ℝ) * (mu0 : ℝ) +
        baseWeight cfg c r * ((cfg.busBonus : ℚ) : ℝ) * outFactor cfg mu0 r *
          ((levelToFrac r.level : ℚ) : ℝ),
       (k0 : ℝ) + baseWeight cfg c r * ((cfg.busBonus : ℚ) : ℝ) * outFactor cfg mu0 r,
       if r.source = Source.driver then 1 else 0,
       if r.source = Source.driver then 0 else 1⟩ := by
  have hmt : (k0 : ℝ) * (mu0 : ℝ) / (k0 : ℝ) = (mu0 : ℝ) := mul_div_cancel_left₀ _ hk
  simp only [fuseStep, baseWeight, outFactor, hbus, eq_self_iff_true, if_true]
  rw [if_neg hk, hmt]
  by_cases hout :
      |((levelToFrac r.level : ℚ) : ℝ) - ((mu0 : ℚ) : ℝ)| > ((cfg.outDelta : ℚ) : ℝ)
  · rw [if_pos hout, if_pos hout]
  · rw [if_neg hout, if_neg hout]
    simp only [FuseSt.mk.injEq]
    refine ⟨by push_cast; ring, by push_cast; ring, by simp, by simp⟩

theorem singleReport_mean_mono {K M F u v : ℝ} (hK : 0 < K) (hMF : M ≤ F)
    (hu : 0 ≤ u) (huv : u ≤ v) :
    (K * M + u * F) / (K + u) ≤ (K * M + v * F) / (K + v) := by
  have hdu : 0 < K + u := by linarith
  have hdv : 0 < K + v := by linarith
  rw [div_le_div_iff₀ hdu hdv]
  nlinarith [mul_nonneg (mul_nonneg hK.le (sub_nonneg.mpr hMF)) (sub_nonneg.mpr huv)]

theorem baseWeight_nonneg (cfg : Config) (c : ℤ) (r : Report)
    (hwD : 0 ≤ cfg.wDriver) (hwR : 0 ≤ cfg.wRider) : 0 ≤ baseWeight cfg c r := by
  apply mul_nonneg
  · cases hs : r.source <;> simp [hs] <;> [exact_mod_cast hwD; exact_mod_cast hwR]
  · exact (Real.exp_pos _).le

theorem outFactor_nonneg (cfg : Config) (mu0 : ℚ) (r : Report) :
    0 ≤ outFactor cfg mu0 r := by
  rw [outFactor]
  split <;> norm_num

/-- C4 (amended): the bonus raises the estimate only when the matching
report pulls upward.  For a current window holding exactly one report,
matching the given `bus_id`, whose level fraction is at least the
prior mean `mu0` (with a bonus ≥ 1, nonnegative weights, a positive
prior pseudo-count and a nonnegative capacity), running the estimate
with the `bus_id` filter yields `est_headcount` at least the
unfiltered value. -/
theorem C4_single_match_pulls_toward_report (cfg : Config) (mu0 k0 : ℚ) (b : String)
    (r : Report) (c : ℤ)
    (hbus : r.bus_id = some b) (hbonus : 1 ≤ cfg.busBonus)
    (hwD : 0 ≤ cfg.wDriver) (hwR : 0 ≤ cfg.wRider)
    (hk0 : 0 < k0) (hf : mu0 ≤ levelToFrac r.level) (hcap : 0 ≤ cfg.cap) :
    (runEstimate cfg mu0 k0 none c [r]).est ≤
      (runEstimate cfg mu0 k0 (some b) c [r]).est := by
  have hkR : (0:ℝ) < ((k0 : ℚ) : ℝ) := by exact_mod_cast hk0
  have hkne : ((k0 : ℚ) : ℝ) ≠ 0 := ne_of_gt hkR
  have e1 := fuseStep_init_none cfg mu0 k0 c r hkne
  have e2 := fuseStep_init_some cfg mu0 k0 b c r hkne hbus
  rw [runEstimate, runEstimate, fuse, fuse, List.foldl_cons, List.foldl_nil,
    List.foldl_cons, List.foldl_nil, e1, e2]
  simp only [calcOut]
  have hbw : 0 ≤ baseWeight cfg c r := baseWeight_nonneg cfg c r hwD hwR
  have hof : 0 ≤ outFactor cfg mu0 r := outFactor_nonneg cfg mu0 r
  have hw1 : 0 ≤ baseWeight cfg c r * outFactor cfg mu0 r := mul_nonneg hbw hof
  have hw2 : 0 ≤ baseWeight cfg c r * ((cfg.busBonus : ℚ) : ℝ) * outFactor cfg mu0 r := by
    apply mul_nonneg (mul_nonneg hbw _) hof
    have : (1:ℝ) ≤ ((cfg.busBonus : ℚ) : ℝ) := by exact_mod_cast hbonus
    linarith
  have hw12 : baseWeight cfg c r * outFactor cfg mu0 r ≤
      baseWeight cfg c r * ((cfg.busBonus : ℚ) : ℝ) * outFactor cfg mu0 r := by
    have hbb : (1:ℝ) ≤ ((cfg.busBonus : ℚ) : ℝ) := by exact_mod_cast hbonus
    nlinarith [mul_nonneg hbw hof]
  have hd1 : ((k0 : ℚ) : ℝ) + baseWeight cfg c r * outFactor cfg mu0 r ≠ 0 :=
    ne_of_gt (by linarith)
  have hd2 : ((k0 : ℚ) : ℝ) +
      baseWeight cfg c r * ((cfg.busBonus : ℚ) : ℝ) * outFactor cfg mu0 r ≠ 0 :=
    ne_of_gt (by linarith)
  rw [if_neg hd1, if_neg hd2]
  apply round_le_round_of_le
  apply mul_le_mul_of_nonneg_right
  · apply clamp01_mono
    exact singleReport_mean_mono hkR (by exact_mod_cast hf) hw1 hw12
  · exact_mod_cast hcap

/-- Witness for the amended C4: a driver level-4 report on the queried
bus raises the filtered estimate above the unfiltered one. -/
theorem C4_single_match_pulls_toward_report_witness :
    (runEstimate defaultConfig (7/20) 2 none 0 [repDrv4Bus]).est ≤
      (runEstimate defaultConfig (7/20) 2 (some "B1") 0 [repDrv4Bus]).est :=
  C4_single_match_pulls_toward_report defaultConfig (7/20) 2 "B1" repDrv4Bus 0 rfl
    (by norm_num [defaultConfig]) (by norm_num [defaultConfig])
    (by norm_num [defaultConfig]) (by norm_num)
    (by norm_num [repDrv4Bus, levelToFrac]) (by norm_num [defaultConfig])

/-! ## C1: responses embed the wall clock -/

/-- C1 counterexample: two invocations with identical query
parameters (`?at=0`, all else default) against the same unchanged
(empty) store, taken at wall-clock instants 0 and 1, return different
bodies — the body's `ts` field is `Date.now()` of each invocation, so
the bodies cannot be byte-identical unless the clock readings agree. -/
theorem C1_counterexample :
    lambdaHandler defaultConfig qAtZero emptyStore 0 ≠
      lambdaHandler defaultConfig qAtZero emptyStore 1 := by
  intro h
  have h0 : Except.map Response.ts (lambdaHandler defaultConfig qAtZero emptyStore 0) =
      Except.ok 0 := rfl
  have h1 : Except.map Response.ts (lambdaHandler defaultConfig qAtZero emptyStore 1) =
      Except.ok 1 := rfl
  rw [h, h1] at h0
  simp at h0

/-- C1 (amended): with the `?at=` instant supplied, the handler is
deterministic in everything except the echoed clock: two invocations
with identical query parameters against an unchanged store agree on
every body field other than `ts` (so the bodies are byte-identical
exactly when the two clock readings coincide). -/
theorem C1_deterministic_except_ts (cfg : Config) (q : Query) (store : Store)
    (a n1 n2 : ℤ) (hat : q.atMs = some a) :
    Except.map stripTs (lambdaHandler cfg q store n1) =
      Except.map stripTs (lambdaHandler cfg q store n2) := by
  simp only [lambdaHandler, hat, Option.getD_some]
  cases hp : computeWeekdayPrior store (orDefault q.route "CC") (orDefault q.stop "A") a cfg with
  | error e => rfl
  | ok prior =>
    cases hs : store ("REPORT#" ++ orDefault q.route "CC" ++ "#" ++ orDefault q.stop "A")
        ((a : ℚ) - q.win.getD 15 * 60 * 1000) ((a : ℚ) + 1) with
    | error e => rfl
    | ok reports => rfl

/-- Witness for the amended C1 at wall clocks 0 and 1 over the empty
store. -/
theorem C1_deterministic_except_ts_witness :
    Except.map stripTs (lambdaHandler defaultConfig qAtZero emptyStore 0) =
      Except.map stripTs (lambdaHandler defaultConfig qAtZero emptyStore 1) :=
  C1_deterministic_except_ts defaultConfig qAtZero emptyStore 0 0 1 rfl

/-- Witness for C3 at a concrete query and clock. -/
theorem C3_store_failure_rejects_witness :
    lambdaHandler defaultConfig qAtZero failingStore 0 = .error () :=
  C3_store_failure_rejects defaultConfig qAtZero 0

/-- Witness for the amended C5 at window center 0. -/
theorem C5_driver_first_closer_to_driver_witness :
    |(runEstimate defaultConfig (7/20) 2 none 0 [repDrv4 0, repRdr1 0]).mu - 9/10| <
      |(runEstimate defaultConfig (7/20) 2 none 0 [repDrv4 0, repRdr1 0]).mu - 3/20| :=
  C5_driver_first_closer_to_driver 0
